import Mathlib

/-!
Verification of the nightfall_3 off-chain coordinator against its
natural-language specification.  The definitions below are a shallow
embedding of the relevant JavaScript source, chiefly `cli/lib/nf3.mjs`
and `nightfall-optimist/src/index.mjs`.  Machine integers are modelled
as `Nat`/`Int`, JavaScript fractional arithmetic as `Rat`, fallible
network calls as `Except`, and the scheduling behaviour of the
role queues as an explicit small-step state machine.
-/

namespace Nightfall

/-! ## Role queues (cli/lib/nf3.mjs, lines 28-31)

The module creates four process-wide queues with
`new Queue({ autostart: true, concurrency: 1 })`.
-/

/-- Configuration options passed to the `queue` package constructor. -/
structure QueueConfig where
  autostart : Bool
  concurrency : Nat
deriving DecidableEq, Repr

/-- `const userQueue = new Queue({ autostart: true, concurrency: 1 })` -/
def userQueue : QueueConfig := ⟨true, 1⟩

/-- `const proposerQueue = new Queue({ autostart: true, concurrency: 1 })` -/
def proposerQueue : QueueConfig := ⟨true, 1⟩

/-- `const challengerQueue = new Queue({ autostart: true, concurrency: 1 })` -/
def challengerQueue : QueueConfig := ⟨true, 1⟩

/-- `const liquidityProviderQueue = new Queue({ autostart: true, concurrency: 1 })` -/
def liquidityProviderQueue : QueueConfig := ⟨true, 1⟩

/-! ## Scheduling semantics of a concurrency-bounded queue

The `queue` package (a dependency, not part of this repository) runs the
jobs pushed onto it in FIFO order with at most `concurrency` jobs in
flight at once; with `autostart` the worker starts as soon as a job is
pushed.  We model a queue run as a state machine over the three job
lists: jobs still pending (FIFO, head next to start), jobs currently
executing, and jobs finished (in completion order).  Jobs are
identified by their position in the pushed sequence.
-/

/-- A snapshot of one queue mid-run. -/
structure QueueState where
  pending : List Nat
  running : List Nat
  finished : List Nat
deriving DecidableEq, Repr

/-- One scheduler step of a queue with concurrency bound `c`: either the
worker starts the head pending job (only when fewer than `c` jobs are in
flight), or some in-flight job completes. -/
inductive QStep (c : Nat) : QueueState → QueueState → Prop
  | start {s : QueueState} (t : Nat) (rest : List Nat)
      (hlt : s.running.length < c) (hp : s.pending = t :: rest) :
      QStep c s ⟨rest, s.running ++ [t], s.finished⟩
  | finish {s : QueueState} (t : Nat) (pre post : List Nat)
      (hr : s.running = pre ++ t :: post) :
      QStep c s ⟨s.pending, pre ++ post, s.finished ++ [t]⟩

/-- The initial state of a queue onto which the job sequence `tasks` has
been pushed. -/
def initialQueueState (tasks : List Nat) : QueueState := ⟨tasks, [], []⟩

/-- Reachability of a queue state under the scheduler of a
concurrency-`c` queue. -/
def QueueReach (c : Nat) (s t : QueueState) : Prop :=
  Relation.ReflTransGen (QStep c) s t

/-- One step of a concurrency-1 queue preserves the scheduling
invariant: at most one job in flight, and finished, in-flight, pending
jobs in that order are exactly the pushed sequence. -/
lemma qstep_one_inv {tasks : List Nat} {b c : QueueState} (hstep : QStep 1 b c)
    (ihlen : b.running.length ≤ 1)
    (ihord : b.finished ++ b.running ++ b.pending = tasks) :
    c.running.length ≤ 1 ∧ c.finished ++ c.running ++ c.pending = tasks := by
  cases hstep with
  | start t rest hlt hp =>
    have hrun : b.running = [] := List.length_eq_zero.mp (Nat.lt_one_iff.mp hlt)
    constructor
    · simp [hrun]
    · rw [hrun, hp] at ihord
      simpa [hrun] using ihord
  | finish t pre post hr =>
    rw [hr] at ihlen
    simp only [List.length_append, List.length_cons] at ihlen
    have hpre : pre = [] := List.length_eq_zero.mp (by omega)
    have hpost : post = [] := List.length_eq_zero.mp (by omega)
    subst hpre
    subst hpost
    constructor
    · simp
    · rw [hr] at ihord
      simpa using ihord

/-- Invariant of a concurrency-1 queue: at most one job is in flight, and
the finished jobs followed by the in-flight job followed by the pending
jobs are exactly the pushed sequence, in push order. -/
lemma queueReach_concurrency_one_inv (tasks : List Nat) (s : QueueState)
    (h : QueueReach 1 (initialQueueState tasks) s) :
    s.running.length ≤ 1 ∧ s.finished ++ s.running ++ s.pending = tasks := by
  induction h with
  | refl => simp [initialQueueState]
  | tail _ hstep ih => exact qstep_one_inv hstep ih.1 ih.2

/-- In a concurrency-1 queue a job can only start when nothing is in
flight, and the job that starts is exactly the next unfinished pushed
job: the already finished jobs followed by it form a prefix of the
pushed order. -/
lemma queueReach_start_in_order (tasks : List Nat) (s : QueueState)
    (t : Nat) (rest : List Nat)
    (h : QueueReach 1 (initialQueueState tasks) s)
    (hp : s.pending = t :: rest) :
    s.running.length < 1 →
    s.running = [] ∧ s.finished ++ [t] ++ rest = tasks := by
  intro hlt
  obtain ⟨_, hord⟩ := queueReach_concurrency_one_inv tasks s h
  have hrun : s.running = [] := by
    cases hzero : s.running with
    | nil => rfl
    | cons a l =>
      rw [hzero] at hlt
      simp at hlt
  refine ⟨hrun, ?_⟩
  rw [hrun, hp] at hord
  simpa using hord

/-! ## Roles and submission sites (cli/lib/nf3.mjs)

Each method of `Nf3` that submits a transaction pushes the submission
job onto one of the four module-level queues.  `SubmissionSite`
enumerates every `push` site in the file, `siteQueue` records which
queue the source pushes onto, and `siteRole` the logical role the
transaction is signed for.
-/

/-- The four logical signing roles of the spec. -/
inductive Role
  | user
  | proposer
  | challenger
  | liquidityProvider
deriving DecidableEq, Repr

/-- The queue dedicated to each role (nf3.mjs lines 28-31). -/
def roleQueue : Role → QueueConfig
  | .user => userQueue
  | .proposer => proposerQueue
  | .challenger => challengerQueue
  | .liquidityProvider => liquidityProviderQueue

/-- Every site in cli/lib/nf3.mjs that pushes a `submitTransaction` job
onto a queue. -/
inductive SubmissionSite
  | depositApproval
  | deposit
  | transfer
  | withdraw
  | finaliseWithdrawal
  | requestInstantWithdrawal
  | advanceInstantWithdrawal
  | registerProposer
  | deregisterProposer
  | changeCurrentProposer
  | withdrawBond
  | updateProposer
  | startProposer
  | startChallenger
deriving DecidableEq, Repr

/-- The queue each site pushes onto, read off the source. -/
def siteQueue : SubmissionSite → QueueConfig
  | .depositApproval => userQueue
  | .deposit => userQueue
  | .transfer => userQueue
  | .withdraw => userQueue
  | .finaliseWithdrawal => userQueue
  | .requestInstantWithdrawal => userQueue
  | .advanceInstantWithdrawal => liquidityProviderQueue
  | .registerProposer => proposerQueue
  | .deregisterProposer => proposerQueue
  | .changeCurrentProposer => proposerQueue
  | .withdrawBond => proposerQueue
  | .updateProposer => proposerQueue
  | .startProposer => proposerQueue
  | .startChallenger => challengerQueue

/-- The role each site signs for, per the spec taxonomy. -/
def siteRole : SubmissionSite → Role
  | .depositApproval => .user
  | .deposit => .user
  | .transfer => .user
  | .withdraw => .user
  | .finaliseWithdrawal => .user
  | .requestInstantWithdrawal => .user
  | .advanceInstantWithdrawal => .liquidityProvider
  | .registerProposer => .proposer
  | .deregisterProposer => .proposer
  | .changeCurrentProposer => .proposer
  | .withdrawBond => .proposer
  | .updateProposer => .proposer
  | .startProposer => .proposer
  | .startChallenger => .challenger

/-- C1: every one of the four role queues is configured with concurrency
exactly 1, and for any sequence of tasks pushed to such a queue, in any
reachable scheduler state at most one task is in flight (tasks never run
concurrently) and the finished tasks, the in-flight task and the pending
tasks — in that order — are exactly the pushed sequence, so tasks
complete in exactly the push order and task k+1 cannot start before
task k has completed. -/
theorem role_queues_execute_in_order (q : QueueConfig)
    (hq : q ∈ [userQueue, proposerQueue, challengerQueue, liquidityProviderQueue])
    (tasks : List Nat) (s : QueueState)
    (h : QueueReach q.concurrency (initialQueueState tasks) s) :
    q.concurrency = 1 ∧
    s.running.length ≤ 1 ∧
    s.finished ++ s.running ++ s.pending = tasks := by
  have hc : q.concurrency = 1 := by
    fin_cases hq <;> rfl
  rw [hc] at h
  exact ⟨hc, (queueReach_concurrency_one_inv tasks s h).1,
    (queueReach_concurrency_one_inv tasks s h).2⟩

/-- Witness for C1, at the proposer queue after an initial start step on
the pushed sequence `[0, 1, 2]`. -/
theorem role_queues_execute_in_order_witness :
    proposerQueue.concurrency = 1 ∧
    (QueueState.mk [1, 2] [0] []).running.length ≤ 1 ∧
    (QueueState.mk [1, 2] [0] []).finished ++ (QueueState.mk [1, 2] [0] []).running ++
      (QueueState.mk [1, 2] [0] []).pending = [0, 1, 2] :=
  role_queues_execute_in_order proposerQueue (by simp) [0, 1, 2] ⟨[1, 2], [0], []⟩
    (Relation.ReflTransGen.single
      (QStep.start 0 [1, 2] (by simp [initialQueueState, proposerQueue]) rfl))

/-- C2: every transaction-submission site in nf3.mjs pushes onto the
queue dedicated to its role, that queue has concurrency exactly 1, and
under the queue scheduler at most one submission job of that role is in
flight in any reachable state, so no two submissions for the same role
overlap. -/
theorem role_submissions_serialized (site : SubmissionSite)
    (tasks : List Nat) (s : QueueState)
    (h : QueueReach (siteQueue site).concurrency (initialQueueState tasks) s) :
    siteQueue site = roleQueue (siteRole site) ∧
    (siteQueue site).concurrency = 1 ∧
    s.running.length ≤ 1 := by
  have hq : siteQueue site = roleQueue (siteRole site) := by
    cases site <;> rfl
  have hc : (siteQueue site).concurrency = 1 := by
    cases site <;> rfl
  rw [hc] at h
  exact ⟨hq, hc, (queueReach_concurrency_one_inv tasks s h).1⟩

/-- Witness for C2, at the challenger site with an empty job sequence in
the initial state. -/
theorem role_submissions_serialized_witness :
    siteQueue SubmissionSite.startChallenger =
      roleQueue (siteRole SubmissionSite.startChallenger) ∧
    (siteQueue SubmissionSite.startChallenger).concurrency = 1 ∧
    (initialQueueState []).running.length ≤ 1 :=
  role_submissions_serialized SubmissionSite.startChallenger [] (initialQueueState [])
    Relation.ReflTransGen.refl

/-! ## Optimist startup sequence (nightfall-optimist/src/index.mjs)

`main` subscribes to the two websocket channels, then calls
`initialBlockSync(proposer).then(() => { startEventQueue(...);
conditionalMakeBlock(proposer); })` and finally `app.listen(80)`.  The
`then` callback runs only if the `initialBlockSync` promise fulfils, and
`app.listen` runs before the asynchronous sync resolves.  We embed the
startup as the list of actions that occur, parametrised by whether the
sync promise fulfils.
-/

/-- The observable actions of `main` in startup order. -/
inductive StartupAction
  | subscribeBlockAssembledWs
  | subscribeChallengeWs
  | appListen
  | initialBlockSyncResolved
  | startEventQueue
  | conditionalMakeBlock
  | initialBlockSyncRejected
deriving DecidableEq, Repr

/-- The action trace of `main`: the two subscriptions, the HTTP listen
call, then — only when `initialBlockSync` fulfils — the `.then` callback
running `startEventQueue` followed by `conditionalMakeBlock`. -/
def mainTrace (syncFulfils : Bool) : List StartupAction :=
  [.subscribeBlockAssembledWs, .subscribeChallengeWs, .appListen] ++
    (if syncFulfils then
      [.initialBlockSyncResolved, .startEventQueue, .conditionalMakeBlock]
    else [.initialBlockSyncRejected])

/-- C3: in every run of `main`, `startEventQueue` and
`conditionalMakeBlock` occur only in runs where `initialBlockSync`
resolved, and strictly after its resolution. -/
theorem startup_gated_on_initial_sync (b : Bool) :
    (StartupAction.startEventQueue ∈ mainTrace b →
      StartupAction.initialBlockSyncResolved ∈ mainTrace b ∧
      (mainTrace b).indexOf StartupAction.initialBlockSyncResolved <
        (mainTrace b).indexOf StartupAction.startEventQueue) ∧
    (StartupAction.conditionalMakeBlock ∈ mainTrace b →
      StartupAction.initialBlockSyncResolved ∈ mainTrace b ∧
      (mainTrace b).indexOf StartupAction.initialBlockSyncResolved <
        (mainTrace b).indexOf StartupAction.conditionalMakeBlock) ∧
    (StartupAction.initialBlockSyncResolved ∉ mainTrace b →
      StartupAction.startEventQueue ∉ mainTrace b ∧
      StartupAction.conditionalMakeBlock ∉ mainTrace b) := by
  cases b <;> decide

/-- Witness for C3, in the run where the initial sync fulfils. -/
theorem startup_gated_on_initial_sync_witness :
    StartupAction.initialBlockSyncResolved ∈ mainTrace true ∧
    (mainTrace true).indexOf StartupAction.initialBlockSyncResolved <
      (mainTrace true).indexOf StartupAction.startEventQueue :=
  (startup_gated_on_initial_sync true).1 (by decide)

/-! ## Gas estimation (cli/lib/nf3.mjs, lines 213-245)

`estimateGas` queries `web3.eth.estimateGas` inside a try/catch, falling
back to the constant `GAS`, and returns
`Math.ceil(Number(gasLimit) * GAS_MULTIPLIER)`.  `estimateGasPrice`
queries the external `GAS_ESTIMATE_ENDPOINT` (result in GWei, scaled by
`10 ** 9`), falling back first to `web3.eth.getGasPrice` and then to the
constant `GAS_PRICE`, and returns
`Math.ceil(proposedGasPrice * GAS_PRICE_MULTIPLIER)`.  The constants
come from cli/lib/constants.mjs, which is not in the sources given, so
they are kept as parameters.  Fallible network calls are `Except`
values; a JavaScript try/catch around such a call is `tryCatch` below,
so both functions are total: every raising sub-call is caught.
-/

/-- JavaScript try/catch around a single fallible call: the value of the
call, or the value of the handler when the call throws. -/
def tryCatch {ε α : Type} (call : Except ε α) (handler : ε → α) : α :=
  match call with
  | .ok a => a
  | .error e => handler e

/-- Outcomes of the three fallible queries made during gas estimation. -/
structure GasEnv where
  chainEstimateGas : Except Unit Nat
  estimatorProposeGasPriceGwei : Except Unit Rat
  chainGetGasPrice : Except Unit Nat
deriving Repr

/-- `Nf3.estimateGas` (nf3.mjs 213-227). -/
def estimateGasFn (GAS : Nat) (GAS_MULTIPLIER : Rat) (env : GasEnv) : Int :=
  let gasLimit : Nat := tryCatch env.chainEstimateGas (fun _ => GAS)
  Int.ceil ((gasLimit : Rat) * GAS_MULTIPLIER)

/-- `Nf3.estimateGasPrice` (nf3.mjs 229-245). -/
def estimateGasPriceFn (GAS_PRICE : Nat) (GAS_PRICE_MULTIPLIER : Rat) (env : GasEnv) : Int :=
  let proposedGasPrice : Rat :=
    tryCatch (env.estimatorProposeGasPriceGwei.map (fun r => r * 10 ^ 9))
      (fun _ =>
        tryCatch (env.chainGetGasPrice.map (fun n => (n : Rat)))
          (fun _ => (GAS_PRICE : Rat)))
  Int.ceil (proposedGasPrice * GAS_PRICE_MULTIPLIER)

/-- C4: the gas limit used is the chain's estimate, or the constant
`GAS` when that query fails; the gas price is the external estimator's
GWei value scaled to Wei, or the chain's last-block gas price when the
estimator fails, or the constant `GAS_PRICE` when that query fails too;
in every case the configured multiplier is applied and the result is
rounded up; both functions are total (every raising sub-call is caught),
so neither ever raises. -/
theorem gas_estimation_fallbacks (GAS GAS_PRICE : Nat)
    (GAS_MULTIPLIER GAS_PRICE_MULTIPLIER : Rat) (env : GasEnv) :
    (∀ g, env.chainEstimateGas = .ok g →
      estimateGasFn GAS GAS_MULTIPLIER env = Int.ceil ((g : Rat) * GAS_MULTIPLIER)) ∧
    (env.chainEstimateGas = .error () →
      estimateGasFn GAS GAS_MULTIPLIER env = Int.ceil ((GAS : Rat) * GAS_MULTIPLIER)) ∧
    (∀ r, env.estimatorProposeGasPriceGwei = .ok r →
      estimateGasPriceFn GAS_PRICE GAS_PRICE_MULTIPLIER env =
        Int.ceil (r * 10 ^ 9 * GAS_PRICE_MULTIPLIER)) ∧
    (∀ p, env.estimatorProposeGasPriceGwei = .error () →
      env.chainGetGasPrice = .ok p →
      estimateGasPriceFn GAS_PRICE GAS_PRICE_MULTIPLIER env =
        Int.ceil ((p : Rat) * GAS_PRICE_MULTIPLIER)) ∧
    (env.estimatorProposeGasPriceGwei = .error () →
      env.chainGetGasPrice = .error () →
      estimateGasPriceFn GAS_PRICE GAS_PRICE_MULTIPLIER env =
        Int.ceil ((GAS_PRICE : Rat) * GAS_PRICE_MULTIPLIER)) := by
  refine ⟨?_, ?_, ?_, ?_, ?_⟩
  · intro g hg
    simp [estimateGasFn, tryCatch, hg]
  · intro hg
    simp [estimateGasFn, tryCatch, hg]
  · intro r hr
    simp [estimateGasPriceFn, tryCatch, Except.map, hr]
  · intro p hr hp
    simp [estimateGasPriceFn, tryCatch, Except.map, hr, hp]
  · intro hr hp
    simp [estimateGasPriceFn, tryCatch, Except.map, hr, hp]

/-- Witness for C4: with every query failing and multipliers 2, the
functions return the doubled constants. -/
theorem gas_estimation_fallbacks_witness :
    estimateGasFn 4000000 2 ⟨.error (), .error (), .error ()⟩ =
      Int.ceil ((4000000 : Rat) * 2) ∧
    estimateGasPriceFn 10000000000 2 ⟨.error (), .error (), .error ()⟩ =
      Int.ceil ((10000000000 : Rat) * 2) :=
  ⟨(gas_estimation_fallbacks 4000000 10000000000 2 2
      ⟨.error (), .error (), .error ()⟩).2.1 rfl,
   (gas_estimation_fallbacks 4000000 10000000000 2 2
      ⟨.error (), .error (), .error ()⟩).2.2.2.2 rfl rfl⟩

/-! ## Transaction submission (cli/lib/nf3.mjs, lines 258-299)

`submitTransaction` estimates gas price and gas limit, builds the
transaction object, then: if `this.ethereumSigningKey` is truthy it
signs locally and sends the signed raw transaction, resolving with the
receipt on the `receipt` event and rejecting on the `error` event
(which fires on revert and on timeout); otherwise it calls
`web3.eth.sendTransaction(tx)`, handing the unsigned transaction to the
external signer, whose promise likewise resolves with the receipt or
rejects.  The send outcome is modelled as an `Except` supplied by the
chain boundary.
-/

/-- A transaction receipt returned by the chain. -/
structure Receipt where
  transactionHash : String
deriving DecidableEq, Repr

/-- The transaction object built by `submitTransaction`. -/
structure TxRequest where
  toAddr : String
  data : String
  value : Nat
  gas : Int
  gasPrice : Int
deriving DecidableEq, Repr

/-- Which path `submitTransaction` takes. -/
inductive SubmitPath
  | signedRaw
  | externalSigner
deriving DecidableEq, Repr

/-- JavaScript truthiness of the `ethereumSigningKey` field: absent
(undefined) and the empty string are falsy. -/
def jsTruthy : Option String → Bool
  | none => false
  | some s => decide (s ≠ "")

/-- `Nf3.submitTransaction` (nf3.mjs 258-299): the built transaction,
the signing path taken, and the settled result. -/
def submitTransactionFn (GAS GAS_PRICE : Nat)
    (GAS_MULTIPLIER GAS_PRICE_MULTIPLIER : Rat) (env : GasEnv)
    (ethereumSigningKey : Option String)
    (contractAddress unsignedTransaction : String) (fee : Nat)
    (sendOutcome : Except String Receipt) :
    TxRequest × SubmitPath × Except String Receipt :=
  let gasPrice := estimateGasPriceFn GAS_PRICE GAS_PRICE_MULTIPLIER env
  let gas := estimateGasFn GAS GAS_MULTIPLIER env
  let tx : TxRequest := ⟨contractAddress, unsignedTransaction, fee, gas, gasPrice⟩
  if jsTruthy ethereumSigningKey then (tx, .signedRaw, sendOutcome)
  else (tx, .externalSigner, sendOutcome)

/-- C5: `submitTransaction` signs locally and sends a signed raw
transaction exactly when a signing key is held (truthy), otherwise hands
the unsigned transaction to the external signer; in both cases the
returned promise resolves with the receipt when the send succeeds and
rejects with the error when the transaction reverts or times out. -/
theorem submit_transaction_path_and_result (GAS GAS_PRICE : Nat)
    (GAS_MULTIPLIER GAS_PRICE_MULTIPLIER : Rat) (env : GasEnv)
    (key : Option String) (contractAddress unsignedTransaction : String)
    (fee : Nat) (sendOutcome : Except String Receipt) :
    (jsTruthy key = true →
      (submitTransactionFn GAS GAS_PRICE GAS_MULTIPLIER GAS_PRICE_MULTIPLIER env
        key contractAddress unsignedTransaction fee sendOutcome).2.1 =
        SubmitPath.signedRaw) ∧
    (jsTruthy key = false →
      (submitTransactionFn GAS GAS_PRICE GAS_MULTIPLIER GAS_PRICE_MULTIPLIER env
        key contractAddress unsignedTransaction fee sendOutcome).2.1 =
        SubmitPath.externalSigner) ∧
    (submitTransactionFn GAS GAS_PRICE GAS_MULTIPLIER GAS_PRICE_MULTIPLIER env
      key contractAddress unsignedTransaction fee sendOutcome).2.2 = sendOutcome := by
  refine ⟨?_, ?_, ?_⟩
  · intro hk
    simp [submitTransactionFn, hk]
  · intro hk
    simp [submitTransactionFn, hk]
  · by_cases hk : jsTruthy key <;> simp [submitTransactionFn, hk]

/-- Witness for C5: with a held signing key the signed-raw path is taken
and a successful send settles with its receipt. -/
theorem submit_transaction_path_and_result_witness :
    (submitTransactionFn 4000000 10000000000 2 2 ⟨.error (), .error (), .error ()⟩
      (some "0xabc") "0xshield" "0xdata" 10 (.ok ⟨"0xhash"⟩)).2.1 =
      SubmitPath.signedRaw ∧
    (submitTransactionFn 4000000 10000000000 2 2 ⟨.error (), .error (), .error ()⟩
      (some "0xabc") "0xshield" "0xdata" 10 (.ok ⟨"0xhash"⟩)).2.2 =
      Except.ok ⟨"0xhash"⟩ :=
  ⟨(submit_transaction_path_and_result 4000000 10000000000 2 2
      ⟨.error (), .error (), .error ()⟩ (some "0xabc") "0xshield" "0xdata" 10
      (.ok ⟨"0xhash"⟩)).1 (by decide),
   (submit_transaction_path_and_result 4000000 10000000000 2 2
      ⟨.error (), .error (), .error ()⟩ (some "0xabc") "0xshield" "0xdata" 10
      (.ok ⟨"0xhash"⟩)).2.2⟩

/-! ## Commit/reveal challenge engine

The engine that decides when commit and reveal transactions are issued
lives in nightfall-optimist/src/services/challenges.mjs, which is not
among the sources given; the cli side (`Nf3.startChallenger`,
nf3.mjs 1019-1056) only submits whatever staged payload the optimist
sends.  The engine is therefore modelled from the spec.
-/

/-- Modelled from the spec: the state of the optimist ChallengeEngine
(services/challenges.mjs, absent from the given sources), per spec
section 4.6 — on fault detection submit a commit for the faulty block;
only after that commit is confirmed on-chain submit the reveal; on a
competing commit abandon without revealing.  `committed` holds blocks
whose commit transaction was successfully submitted, `confirmed` those
whose commit is confirmed on-chain, `revealed` those for which a reveal
was submitted. -/
structure ChallengeEngineState where
  committed : List Nat
  confirmed : List Nat
  revealed : List Nat
deriving DecidableEq, Repr

/-- Modelled from the spec: one transition of the ChallengeEngine.  A
commit may be submitted for a newly detected faulty block; a commit
already submitted may be confirmed on-chain; a reveal may be submitted
only for a block whose commit is confirmed; an attempt that finds a
competing commit is abandoned, changing nothing. -/
inductive ChallengeStep : ChallengeEngineState → ChallengeEngineState → Prop
  | commit {s : ChallengeEngineState} (b : Nat) (hnew : b ∉ s.committed) :
      ChallengeStep s ⟨b :: s.committed, s.confirmed, s.revealed⟩
  | confirm {s : ChallengeEngineState} (b : Nat) (hc : b ∈ s.committed) :
      ChallengeStep s ⟨s.committed, b :: s.confirmed, s.revealed⟩
  | reveal {s : ChallengeEngineState} (b : Nat) (hc : b ∈ s.confirmed) :
      ChallengeStep s ⟨s.committed, s.confirmed, b :: s.revealed⟩
  | abandon {s : ChallengeEngineState} :
      ChallengeStep s s

/-- The engine starts with no challenge in any phase. -/
def initialChallengeState : ChallengeEngineState := ⟨[], [], []⟩

/-- C6: in every execution of the challenge engine, every block with a
reveal submitted had its commit confirmed, and every confirmed block
had a commit successfully submitted — no reveal exists without a prior
successful commit for the same block. -/
theorem challenger_commit_before_reveal (s : ChallengeEngineState)
    (h : Relation.ReflTransGen ChallengeStep initialChallengeState s) :
    (∀ b, b ∈ s.revealed → b ∈ s.confirmed) ∧
    (∀ b, b ∈ s.confirmed → b ∈ s.committed) := by
  induction h with
  | refl => simp [initialChallengeState]
  | tail _ hstep ih =>
    obtain ⟨ihrc, ihcc⟩ := ih
    cases hstep with
    | commit b hnew =>
      refine ⟨fun x hx => ihrc x hx, fun x hx => ?_⟩
      exact List.mem_cons_of_mem b (ihcc x hx)
    | confirm b hc =>
      refine ⟨fun x hx => List.mem_cons_of_mem b (ihrc x hx), fun x hx => ?_⟩
      rcases List.mem_cons.mp hx with hxb | hxs
      · exact hxb ▸ hc
      · exact ihcc x hxs
    | reveal b hc =>
      refine ⟨fun x hx => ?_, ihcc⟩
      rcases List.mem_cons.mp hx with hxb | hxs
      · exact hxb ▸ hc
      · exact ihrc x hxs
    | abandon => exact ⟨ihrc, ihcc⟩

/-- Witness for C6 at a concrete three-step run: commit block 5, confirm
it, reveal it. -/
theorem challenger_commit_before_reveal_witness :
    (∀ b, b ∈ (ChallengeEngineState.mk [5] [5] [5]).revealed →
      b ∈ (ChallengeEngineState.mk [5] [5] [5]).confirmed) ∧
    (∀ b, b ∈ (ChallengeEngineState.mk [5] [5] [5]).confirmed →
      b ∈ (ChallengeEngineState.mk [5] [5] [5]).committed) :=
  challenger_commit_before_reveal ⟨[5], [5], [5]⟩
    (Relation.ReflTransGen.head (ChallengeStep.commit 5 (by simp [initialChallengeState]))
      (Relation.ReflTransGen.head (ChallengeStep.confirm 5 (by simp))
        (Relation.ReflTransGen.single (ChallengeStep.reveal 5 (by simp)))))

/-! ## Websocket message handlers (cli/lib/nf3.mjs)

The `onmessage` handler of `startProposer` (lines 907-926) parses the
inbound message and pushes one submission job onto `proposerQueue` when
the message type is `block`, and pushes nothing otherwise.  The
`onmessage` handler of `startChallenger` (lines 1035-1055) pushes one
job onto `challengerQueue` when the type is `commit` or `challenge`,
and nothing otherwise.
-/

/-- A parsed websocket message from the optimist. -/
structure WsMsg where
  type : String
  txDataToSign : String
deriving DecidableEq, Repr

/-- Jobs pushed onto `proposerQueue` by the `startProposer` `onmessage`
handler for one parsed message. -/
def proposerOnMessage (msg : WsMsg) : List String :=
  if msg.type = "block" then [msg.txDataToSign] else []

/-- Jobs pushed onto `challengerQueue` by the `startChallenger`
`onmessage` handler for one parsed message. -/
def challengerOnMessage (msg : WsMsg) : List String :=
  if msg.type = "commit" ∨ msg.type = "challenge" then [msg.txDataToSign] else []

/-- Counterexample to C7: a parsed message whose type does not match the
handled type enqueues no task at all — the `startProposer` handler
enqueues nothing for a message of type `instant`, so it is not the case
that every parsed message produces exactly one task. -/
theorem message_not_always_one_task :
    ¬ (proposerOnMessage ⟨"instant", "0xdead"⟩).length = 1 := by
  decide

/-- C7 amended: each parsed websocket message enqueues at most one task,
never two; the `startProposer` handler enqueues exactly one task exactly
when the message type is `block`, and the `startChallenger` handler
exactly when the type is `commit` or `challenge`; all other parsed
messages enqueue none. -/
theorem message_at_most_one_task (msg : WsMsg) :
    (proposerOnMessage msg).length ≤ 1 ∧
    ((proposerOnMessage msg).length = 1 ↔ msg.type = "block") ∧
    (challengerOnMessage msg).length ≤ 1 ∧
    ((challengerOnMessage msg).length = 1 ↔
      (msg.type = "commit" ∨ msg.type = "challenge")) := by
  refine ⟨?_, ?_, ?_, ?_⟩
  · by_cases h : msg.type = "block" <;> simp [proposerOnMessage, h]
  · by_cases h : msg.type = "block" <;> simp [proposerOnMessage, h]
  · by_cases h : msg.type = "commit" ∨ msg.type = "challenge" <;>
      simp [challengerOnMessage, h]
  · by_cases h : msg.type = "commit" ∨ msg.type = "challenge" <;>
      simp [challengerOnMessage, h]

/-! ## Websocket connection setup and keepalive (cli/lib/nf3.mjs)

Each subscription method creates a `ReconnectingWebSocket` and assigns
an `onopen` callback that starts a `setInterval` sending a ping every
`WEBSOCKET_PING_TIME` and then sends the channel-declaration handshake
(`blocks`, `challenge` or `instant`).  `ReconnectingWebSocket` re-fires
`onopen` on every reconnect, so the handshake and the ping interval are
repeated per open.  The listener for the pong response is commented out
in the source, and no handler closes the connection or reconnects when
a pong fails to arrive.  We embed each subscription as the record of
what its callbacks do, plus the actions its handlers produce per
connection event.
-/

/-- What a subscription sets up on its websocket, read off the source:
the handshake string sent in `onopen`, whether `onopen` starts the
keepalive ping interval, whether any listener for the pong response is
installed, and whether anything treats a missing pong as a disconnect. -/
structure WsSetup where
  handshake : String
  pingIntervalOnOpen : Bool
  pongListener : Bool
  pongTimeoutClosesConnection : Bool
deriving DecidableEq, Repr

/-- `Nf3.startProposer` connection (nf3.mjs 886-931): sends `blocks`,
starts the ping interval, pong listener commented out. -/
def startProposerWs : WsSetup := ⟨"blocks", true, false, false⟩

/-- `Nf3.startChallenger` connection (nf3.mjs 1019-1056). -/
def startChallengerWs : WsSetup := ⟨"challenge", true, false, false⟩

/-- `Nf3.getInstantWithdrawalRequestedEmitter` connection
(nf3.mjs 640-665). -/
def instantWithdrawalWs : WsSetup := ⟨"instant", true, false, false⟩

/-- `Nf3.getNewBlockEmitter` connection (nf3.mjs 959-984). -/
def newBlockEmitterWs : WsSetup := ⟨"blocks", true, false, false⟩

/-- `Nf3.getChallengeEmitter` connection (nf3.mjs 1068-1093). -/
def challengeEmitterWs : WsSetup := ⟨"challenge", true, false, false⟩

/-- Events visible to the connection handlers: an open (first connect or
any reconnect), a keepalive tick, or a ping whose pong never arrived. -/
inductive ConnEvent
  | opened
  | pingTick
  | pongMissed
deriving DecidableEq, Repr

/-- Actions the handlers can produce. -/
inductive ConnAction
  | startPingInterval
  | sendHandshake (m : String)
  | reconnect
deriving DecidableEq, Repr

/-- The handler response to one connection event, read off the source:
`onopen` starts the ping interval and sends the handshake; a ping tick
pings the raw socket but produces no further action; a missing pong
produces a reconnect only if something in the handlers treats it as a
disconnect. -/
def onConnEvent (w : WsSetup) : ConnEvent → List ConnAction
  | .opened => [.startPingInterval, .sendHandshake w.handshake]
  | .pingTick => []
  | .pongMissed => if w.pongTimeoutClosesConnection then [.reconnect] else []

/-- All actions produced by the handlers over a sequence of connection
events. -/
def connRun (w : WsSetup) (es : List ConnEvent) : List ConnAction :=
  es.flatMap (onConnEvent w)

/-- Occurrence count in a list. -/
def countIn {α : Type} [DecidableEq α] : List α → α → Nat
  | [], _ => 0
  | x :: xs, a => (if x = a then 1 else 0) + countIn xs a

lemma countIn_append {α : Type} [DecidableEq α] (l₁ l₂ : List α) (a : α) :
    countIn (l₁ ++ l₂) a = countIn l₁ a + countIn l₂ a := by
  induction l₁ with
  | nil => simp [countIn]
  | cons x xs ih => simp [countIn, ih]; omega

/-- Counterexample to C8: on the `startProposer` connection, a missed
pong response produces no reconnection — no pong listener is installed
(it is commented out in the source) and no handler treats a missing
pong as a disconnect. -/
theorem missed_pong_does_not_reconnect :
    ConnAction.reconnect ∉
      connRun startProposerWs [ConnEvent.opened, ConnEvent.pongMissed] ∧
    startProposerWs.pongListener = false := by
  decide

/-- C8 amended: on every connection open — including every reconnect —
the channel-declaration handshake is re-sent and the periodic keepalive
ping interval is started, once per open; but no pong listener is
installed and a missing pong response is not treated as a disconnect by
this code, so probe failure alone never triggers reconnection
(reconnection happens only on close/error, inside the
`ReconnectingWebSocket` library). -/
theorem ws_open_resends_handshake_and_ping (w : WsSetup)
    (hw : w ∈ [startProposerWs, startChallengerWs, instantWithdrawalWs,
      newBlockEmitterWs, challengeEmitterWs])
    (es : List ConnEvent) :
    countIn (connRun w es) (ConnAction.sendHandshake w.handshake) =
      countIn es ConnEvent.opened ∧
    countIn (connRun w es) ConnAction.startPingInterval =
      countIn es ConnEvent.opened ∧
    w.pongListener = false ∧
    ConnAction.reconnect ∉ connRun w es := by
  have hpt : w.pongTimeoutClosesConnection = false := by
    fin_cases hw <;> rfl
  have hpl : w.pongListener = false := by
    fin_cases hw <;> rfl
  refine ⟨?_, ?_, hpl, ?_⟩
  · induction es with
    | nil => simp [connRun, countIn]
    | cons e rest ih =>
      have hc : connRun w (e :: rest) = onConnEvent w e ++ connRun w rest := rfl
      rw [hc, countIn_append]
      cases e <;> simp [onConnEvent, countIn, hpt, ih]
  · induction es with
    | nil => simp [connRun, countIn]
    | cons e rest ih =>
      have hc : connRun w (e :: rest) = onConnEvent w e ++ connRun w rest := rfl
      rw [hc, countIn_append]
      cases e <;> simp [onConnEvent, countIn, hpt, ih]
  · induction es with
    | nil => simp [connRun]
    | cons e rest ih =>
      have hc : connRun w (e :: rest) = onConnEvent w e ++ connRun w rest := rfl
      rw [hc]
      cases e <;> simp [onConnEvent, hpt, ih]

/-- Witness for the amended C8, on the `startProposer` connection over
an open followed by a reconnect open and a missed pong. -/
theorem ws_open_resends_handshake_and_ping_witness :
    countIn (connRun startProposerWs
        [ConnEvent.opened, ConnEvent.pongMissed, ConnEvent.opened])
      (ConnAction.sendHandshake startProposerWs.handshake) =
      countIn [ConnEvent.opened, ConnEvent.pongMissed, ConnEvent.opened]
        ConnEvent.opened ∧
    countIn (connRun startProposerWs
        [ConnEvent.opened, ConnEvent.pongMissed, ConnEvent.opened])
      ConnAction.startPingInterval =
      countIn [ConnEvent.opened, ConnEvent.pongMissed, ConnEvent.opened]
        ConnEvent.opened ∧
    startProposerWs.pongListener = false ∧
    ConnAction.reconnect ∉ connRun startProposerWs
      [ConnEvent.opened, ConnEvent.pongMissed, ConnEvent.opened] :=
  ws_open_resends_handshake_and_ping startProposerWs (by simp)
    [ConnEvent.opened, ConnEvent.pongMissed, ConnEvent.opened]

/-! ## Proposer registration (cli/lib/nf3.mjs, lines 702-725)

`registerProposer` posts to `/proposer/register`; when the optimist
replies with an empty `txDataToSign` string the method returns `false`
at once — the source comment reads `already registered` — and only
otherwise pushes the bond-paying submission onto `proposerQueue`.
-/

/-- The value `registerProposer` settles with. -/
inductive RegisterProposerResult
  | alreadyRegistered
  | submissionPending (txDataToSign : String)
deriving DecidableEq, Repr

/-- `Nf3.registerProposer` after the optimist responded with
`txDataToSign`: the result returned to the caller, and the jobs (payload
and attached bond value) pushed onto `proposerQueue`. -/
def registerProposerFn (PROPOSER_BOND : Nat) (txDataToSign : String) :
    RegisterProposerResult × List (String × Nat) :=
  if txDataToSign = "" then (.alreadyRegistered, [])
  else (.submissionPending txDataToSign, [(txDataToSign, PROPOSER_BOND)])

/-- C9: when the optimist replies with an empty `txDataToSign` (the
proposer is already registered), `registerProposer` returns `false` and
pushes no submission job, so no bond is paid; and for every response at
most one bond-paying job is pushed, so the bond is never paid twice for
one registration. -/
theorem register_proposer_no_double_bond (PROPOSER_BOND : Nat)
    (txDataToSign : String) :
    (txDataToSign = "" →
      registerProposerFn PROPOSER_BOND txDataToSign =
        (RegisterProposerResult.alreadyRegistered, [])) ∧
    (registerProposerFn PROPOSER_BOND txDataToSign).2.length ≤ 1 := by
  constructor
  · intro h
    simp [registerProposerFn, h]
  · by_cases h : txDataToSign = "" <;> simp [registerProposerFn, h]

/-- Witness for C9 at the empty response and a concrete bond. -/
theorem register_proposer_no_double_bond_witness :
    registerProposerFn 10 "" = (RegisterProposerResult.alreadyRegistered, []) ∧
    (registerProposerFn 10 "").2.length ≤ 1 :=
  ⟨(register_proposer_no_double_bond 10 "").1 rfl,
   (register_proposer_no_double_bond 10 "").2⟩

/-! ## Instant-withdrawal request (cli/lib/nf3.mjs, lines 576-599)

`requestInstantWithdrawal` wraps the whole body in a try/catch whose
catch clause is `return null`: when the initial
`/set-instant-withdrawal` HTTP post throws, the method resolves to
`null` and never reaches the queue push.
-/

/-- The value `requestInstantWithdrawal` settles with: `null`, or the
pending submission promise. -/
inductive InstantWithdrawalResult
  | nullResult
  | submissionPending (txDataToSign : String) (fee : Nat)
deriving DecidableEq, Repr

/-- `Nf3.requestInstantWithdrawal` given the outcome of the initial
HTTP post: the settled result and the jobs pushed onto `userQueue`.
The function is total — a failing post is caught, not re-raised. -/
def requestInstantWithdrawalFn (httpResult : Except String String) (fee : Nat) :
    InstantWithdrawalResult × List (String × Nat) :=
  match httpResult with
  | .error _ => (.nullResult, [])
  | .ok txDataToSign => (.submissionPending txDataToSign fee, [(txDataToSign, fee)])

/-- C10: whenever the initial set-instant-withdrawal HTTP request fails,
`requestInstantWithdrawal` resolves to `null` — it does not reject, the
failure being caught — and pushes no submission job. -/
theorem instant_withdrawal_null_on_failure (e : String) (fee : Nat) :
    requestInstantWithdrawalFn (.error e) fee =
      (InstantWithdrawalResult.nullResult, []) := by
  rfl

end Nightfall
